import Mathlib

/-!
Shallow embedding of the `generator-log-nginx` synthetic access-log generator.

The repository holds two variants of the same program:
* the weighted variant (`src/unnamed/part_000`), which draws each record field
  from configuration-driven percentage distributions, and
* the fixed allow-list variant (`src/main.go`), which draws each field from an
  explicit comma-separated list given in the environment.

Randomness is embedded by passing the raw draws of the random source as
explicit parameters: `gofakeit.Number(lo, hi)` becomes `goNumber lo hi r`
(uniform on the inclusive range, `r` the raw entropy), `rand.Intn n` becomes
`r % n`, and calls into the opaque fake-data provider (`UserAgent`, `UUID`,
`DomainName`, `BuzzWord`, `HTTPMethod`, `HTTPStatusCodeSimple`,
`IPv4Address`, `IPv6Address`, `Float64Range`) become parameters carrying the
provider's result. Go `panic` becomes `Except.error` with the panic message.
Go strings are Lean `String`; character-level path reasoning uses `.data`.
-/

deriving instance DecidableEq for Except

namespace GenLog

/-- Model of `gofakeit.Number(lo, hi)`: a uniform draw from the inclusive
range `[lo, hi]`, here mapped from raw entropy `r`. -/
def goNumber (lo hi : Int) (r : Nat) : Int :=
  lo + ((r % (hi + 1 - lo).toNat : Nat) : Int)

/-- Model of `gofakeit.RandomString(xs)`: a uniform element of `xs`. -/
def goRandomString (xs : List String) (r : Nat) : String :=
  xs.getD (r % xs.length) ""

/-- Model of `strings.TrimPrefix(s, pre)`. -/
def trimPrefix (s pre : String) : String :=
  if pre.data.isPrefixOf s.data then String.mk (s.data.drop pre.data.length)
  else s

/-- The whitespace class of `strings.TrimSpace` (`unicode.IsSpace`),
restricted to the ASCII range the generator can produce. -/
def goIsSpace (c : Char) : Bool :=
  c = ' ' || c = '\t' || c = '\n' || c = '\x0b' || c = '\x0c' || c = '\r'

/-- Model of `strings.TrimSpace`: strip leading and trailing whitespace. -/
def goTrimSpace (s : String) : String :=
  String.mk (((s.data.dropWhile goIsSpace).reverse.dropWhile goIsSpace).reverse)

/-- The comma split of `strings.Split(s, ",")` on the character list; like
Go, a split always yields at least one (possibly empty) part. -/
def splitComma : List Char → List (List Char)
  | [] => [[]]
  | c :: cs =>
    if c = ',' then [] :: splitComma cs
    else
      match splitComma cs with
      | [] => [[c]]
      | p :: ps => (c :: p) :: ps

/-- Model of `strings.Split(s, ",")`. -/
def goSplitComma (s : String) : List String :=
  (splitComma s.data).map String.mk

/-- Model of `strings.ToLower` (character-wise). -/
def goToLower (s : String) : String :=
  String.mk (s.data.map Char.toLower)

/-- The digit-string value used by `strconv.Atoi`: `some` of the decimal
value when the characters are one or more digits, `none` otherwise. -/
def digitsVal (cs : List Char) : Option Nat :=
  if cs ≠ [] ∧ cs.all Char.isDigit then
    some (cs.foldl (fun a c => a * 10 + (c.toNat - '0'.toNat)) 0)
  else none

/-- Model of `strconv.Atoi`: an optional sign followed by at least one
digit and nothing else parses; every other string is an error (`none`). -/
def atoi (s : String) : Option Int :=
  match s.data with
  | '+' :: rest => (digitsVal rest).map Int.ofNat
  | '-' :: rest => (digitsVal rest).map (fun n => -(Int.ofNat n))
  | cs => (digitsVal cs).map Int.ofNat

/-- The single-character space replacement at the heart of
`strings.Replace(result, " ", "%20", -1)`, on the character list. -/
def encSpaces : List Char → List Char
  | [] => []
  | c :: cs => (if c = ' ' then ['%', '2', '0'] else [c]) ++ encSpaces cs

/-- Model of `strings.Replace(s, " ", "%20", -1)`. -/
def replaceSpaces (s : String) : String :=
  String.mk (encSpaces s.data)

/-- `http` group of one emitted record (`HTTPInfo` / `httpInfo` in the Go
sources; both variants declare the same fields). `RequestTime` (a Go
`float64` from `gofakeit.Float64Range`) is carried as a rational. -/
structure HTTPInfo where
  RequestID : String
  Method : String
  StatusCode : Int
  URL : String
  Host : String
  URI : String
  RequestTime : ℚ
  UserAgent : String
  Protocol : String
  TraceSessionID : String
  ServerProtocol : String
  ContentType : String
  BytesSent : String
deriving Repr, DecidableEq

/-- `nginx` group of one emitted record (`NginxInfo` / `nginxInfo`). -/
structure NginxInfo where
  XForwardFor : String
  RemoteAddr : String
  HTTPReferrer : String
deriving Repr, DecidableEq

/-- One emitted record (`logEntry`); the timestamp is carried abstractly. -/
structure LogEntry where
  Timestamp : Int
  HTTP : HTTPInfo
  Nginx : NginxInfo
deriving Repr, DecidableEq

/-! ## Weighted variant (`src/unnamed/part_000`) -/

namespace Weighted

/-- The weighted variant's `config` (environment defaults are those of the
`envDefault` tags; `Rate` drives only the out-of-scope ticker). -/
structure Config where
  rate : ℚ := 1
  ipv4Percent : Int := 100
  statusOkPercent : Int := 80
  pathMinLength : Int := 1
  pathMaxLength : Int := 5
  percentageGet : Int := 60
  percentagePost : Int := 30
  percentagePut : Int := 0
  percentagePatch : Int := 0
  percentageDelete : Int := 0
deriving Repr, DecidableEq

/-- `realisticBytesSent` of the weighted variant: statuses other than 200
draw from `gofakeit.Number(30, 120)`, status 200 from
`gofakeit.Number(800, 3100)`. -/
def realisticBytesSent (statusCode : Int) (r : Nat) : Int :=
  if statusCode ≠ 200 then goNumber 30 120 r
  else goNumber 800 3100 r

/-- `weightedStatusCode`: rolls `gofakeit.Number(0, 100)`; a roll at or below
`percentageOk` yields 200, otherwise the result of the provider call
`gofakeit.HTTPStatusCodeSimple()` (passed in as `fbStatus`). -/
def weightedStatusCode (percentageOk : Int) (r : Nat) (fbStatus : Int) : Int :=
  let roll := goNumber 0 100 r
  if roll ≤ percentageOk then 200 else fbStatus

/-- `weightedHTTPMethod`: panics (modelled as `Except.error`) when the five
percentages sum over 100, otherwise walks the cumulative thresholds against a
roll from `gofakeit.Number(0, 100)`, falling back to the provider call
`gofakeit.HTTPMethod()` (passed in as `fbMethod`). -/
def weightedHTTPMethod (pGet pPost pPut pPatch pDelete : Int) (r : Nat)
    (fbMethod : String) : Except String String :=
  if pGet + pPost + pPut + pPatch + pDelete > 100 then
    .error "HTTP method percentages add up to more than 100%"
  else
    let roll := goNumber 0 100 r
    if roll ≤ pGet then .ok "GET"
    else if roll ≤ pGet + pPost then .ok "POST"
    else if roll ≤ pGet + pPost + pPut then .ok "PUT"
    else if roll ≤ pGet + pPost + pPut + pPatch then .ok "PATCH"
    else if roll ≤ pGet + pPost + pPut + pPatch + pDelete then .ok "DELETE"
    else .ok fbMethod

/-- `weightedIPVersion`: a roll at or below `percentageIPv4` yields the
`gofakeit.IPv4Address()` draw (`ip4`), otherwise the `gofakeit.IPv6Address()`
draw (`ip6`). -/
def weightedIPVersion (percentageIPv4 : Int) (r : Nat) (ip4 ip6 : String) :
    String :=
  let roll := goNumber 0 100 r
  if roll ≤ percentageIPv4 then ip4 else ip6

/-- The separator pool of `randomPath` (order as in the source). -/
def separators : List String := ["-", "-", "_", "%20", "/", "/", "/"]

/-- The extension pool of `randomPath` (order as in the source). -/
def extensions : List String :=
  [".html", ".php", ".htm", ".jpg", ".png", ".gif", ".svg", ".css", ".js"]

/-- The builder loop of `randomPath`: for `i` from 0 to `n - 1`, append a
separator when `i > 0`, then the `i`-th `gofakeit.BuzzWord()` draw. -/
def pathBody (word : Nat → String) (sep : Nat → String) : Nat → String
  | 0 => ""
  | n + 1 => pathBody word sep n ++ (if n > 0 then sep n else "") ++ word n

/-- `randomPath`: a leading `/`, `gofakeit.Number(mn, mx)` buzzword segments
joined by separators drawn from the weighted pool, a random extension, then
global replacement of spaces by `%20`. -/
def randomPath (mn mx : Int) (rlen : Nat) (sepR : Nat → Nat)
    (word : Nat → String) (rext : Nat) : String :=
  let length := goNumber mn mx rlen
  replaceSpaces ("/"
    ++ pathBody word (fun i => goRandomString separators (sepR i)) length.toNat
    ++ goRandomString extensions rext)

/-- `checkMinMax`: floors both bounds at 1, then swaps them when inverted
(the Go version mutates through pointers; here the pair is returned). -/
def checkMinMax (mn mx : Int) : Int × Int :=
  let mn' := if mn < 1 then 1 else mn
  let mx' := if mx < 1 then 1 else mx
  if mn' > mx' then (mx', mn') else (mn', mx')

/-- The random draws and provider results one tick of the weighted variant
consumes, in the source's calling order. -/
structure Draws where
  rIP : Nat
  ip4 : String
  ip6 : String
  rMethod : Nat
  fbMethod : String
  rLen : Nat
  sepR : Nat → Nat
  word : Nat → String
  rext : Nat
  rStatus : Nat
  fbStatus : Int
  rBytes : Nat
  requestTime : ℚ
  userAgent : String
  uuid : String
  host : String
  refDomain : String
  refRLen : Nat
  refSepR : Nat → Nat
  refWord : Nat → String
  refRext : Nat
  ts : Int

/-- Everything the weighted variant's `main` runs before entering the ticker
loop: `env.Parse` (out of scope, the parsed `cfg` is the input) and
`checkMinMax` on the path bounds. Nothing here can fail. -/
def startup (cfg : Config) : Except String Config :=
  let bounds := checkMinMax cfg.pathMinLength cfg.pathMaxLength
  .ok { cfg with pathMinLength := bounds.1, pathMaxLength := bounds.2 }

/-- One iteration of the weighted variant's ticker loop: generate every
field, assemble the record. The `weightedHTTPMethod` panic aborts the tick
before any record exists. -/
def generate (cfg : Config) (d : Draws) : Except String LogEntry :=
  let ip := weightedIPVersion cfg.ipv4Percent d.rIP d.ip4 d.ip6
  match weightedHTTPMethod cfg.percentageGet cfg.percentagePost
      cfg.percentagePut cfg.percentagePatch cfg.percentageDelete
      d.rMethod d.fbMethod with
  | .error msg => .error msg
  | .ok httpMethod =>
    let path := randomPath cfg.pathMinLength cfg.pathMaxLength
      d.rLen d.sepR d.word d.rext
    let statusCode := weightedStatusCode cfg.statusOkPercent d.rStatus d.fbStatus
    let bodyBytesSent := realisticBytesSent statusCode d.rBytes
    let requestID := goToLower d.uuid
    let host := d.host
    let httpReferrer := "http://" ++ d.refDomain
      ++ randomPath cfg.pathMinLength cfg.pathMaxLength
        d.refRLen d.refSepR d.refWord d.refRext
    .ok
      { Timestamp := d.ts
        HTTP :=
          { RequestID := requestID
            Method := httpMethod
            StatusCode := statusCode
            URL := host ++ "/" ++ trimPrefix path "/"
            Host := host
            URI := path
            RequestTime := d.requestTime
            UserAgent := d.userAgent
            Protocol := "HTTP/1.1"
            TraceSessionID := ""
            ServerProtocol := "HTTP/1.1"
            ContentType := "application/json"
            BytesSent := toString bodyBytesSent }
        Nginx :=
          { XForwardFor := ip
            RemoteAddr := ""
            HTTPReferrer := httpReferrer } }

/-- The first `n` ticks of the loop on a post-startup configuration; a panic
in any tick aborts the process, so no records survive it. -/
def run (cfg : Config) (ds : Nat → Draws) : Nat → Except String (List LogEntry)
  | 0 => .ok []
  | n + 1 =>
    match generate cfg (ds n) with
    | .error msg => .error msg
    | .ok e =>
      match run cfg ds n with
      | .error msg => .error msg
      | .ok rest => .ok (rest ++ [e])

/-- The weighted variant's `main`, cut after `n` ticks: startup, then the
ticker loop. -/
def mainRun (cfg : Config) (ds : Nat → Draws) (n : Nat) :
    Except String (List LogEntry) :=
  match startup cfg with
  | .error msg => .error msg
  | .ok cfg2 => run cfg2 ds n

end Weighted

/-! ## Fixed allow-list variant (`src/main.go`) -/

namespace Fixed

/-- The fixed variant's `config`: raw environment values of the five lists
(empty string when unset, the `envDefault`). -/
structure Config where
  rate : ℚ := 1
  ipAddresses : String := ""
  httpMethods : String := ""
  paths : String := ""
  statusCodes : String := ""
  hosts : String := ""
deriving Repr, DecidableEq

/-- `parseEnvList`: the empty value parses to the empty list, any other value
is trimmed and split on commas (Go's `strings.Split`, like `String.splitOn`,
never returns an empty slice for a non-empty separator). -/
def parseEnvList (envVar : String) : List String :=
  if envVar = "" then [] else goSplitComma (goTrimSpace envVar)

/-- `parseEnvIntList`: splits as `parseEnvList`, trims every part, keeps
exactly those that `strconv.Atoi` accepts (the loop's append-on-success is
`List.filterMap`), silently dropping the rest. -/
def parseEnvIntList (envVar : String) : List Int :=
  if envVar = "" then []
  else ((goSplitComma (goTrimSpace envVar)).map goTrimSpace).filterMap atoi

/-- `realisticBytesSent` of the fixed variant: statuses at or above 400 draw
`rand.Intn(120-30) + 30` (so `[30, 119]`), all others
`rand.Intn(3100-800) + 800` (so `[800, 3099]`). -/
def realisticBytesSent (statusCode : Int) (r : Nat) : Int :=
  if statusCode ≥ 400 then ((r % (120 - 30) : Nat) : Int) + 30
  else ((r % (3100 - 800) : Nat) : Int) + 800

/-- The five parsed allow-lists after startup validation. -/
structure Lists where
  ipList : List String
  methodList : List String
  pathList : List String
  statusCodeList : List Int
  hostList : List String
deriving Repr, DecidableEq

/-- Everything the fixed variant's `main` runs before entering the ticker
loop: parse the five lists, then panic (modelled as `Except.error`) on the
first empty one, in source order. -/
def startup (cfg : Config) : Except String Lists :=
  let ipList := parseEnvList cfg.ipAddresses
  let methodList := parseEnvList cfg.httpMethods
  let pathList := parseEnvList cfg.paths
  let statusCodeList := parseEnvIntList cfg.statusCodes
  let hostList := parseEnvList cfg.hosts
  if ipList.length = 0 then
    .error "IP_ADDRESSES environment variable must be set with at least one IP address"
  else if methodList.length = 0 then
    .error "HTTP_METHODS environment variable must be set with at least one HTTP method"
  else if pathList.length = 0 then
    .error "PATHS environment variable must be set with at least one path"
  else if statusCodeList.length = 0 then
    .error "STATUS_CODES environment variable must be set with at least one status code"
  else if hostList.length = 0 then
    .error "HOSTS environment variable must be set with at least one host"
  else .ok
    { ipList := ipList, methodList := methodList, pathList := pathList
      statusCodeList := statusCodeList, hostList := hostList }

/-- The random draws and provider results one tick of the fixed variant
consumes. The five `rand.Intn(len(...))` index draws come first. -/
structure Draws where
  rIP : Nat
  rMethod : Nat
  rPath : Nat
  rStatus : Nat
  rHost : Nat
  rBytes : Nat
  requestTime : ℚ
  userAgent : String
  uuid : String
  ts : Int

/-- One iteration of the fixed variant's ticker loop: each field is the
`rand.Intn(len(list))`-indexed element of its allow-list. -/
def generate (L : Lists) (d : Draws) : LogEntry :=
  let ip := L.ipList.getD (d.rIP % L.ipList.length) ""
  let httpMethod := L.methodList.getD (d.rMethod % L.methodList.length) ""
  let path := L.pathList.getD (d.rPath % L.pathList.length) ""
  let statusCode := L.statusCodeList.getD (d.rStatus % L.statusCodeList.length) 0
  let host := L.hostList.getD (d.rHost % L.hostList.length) ""
  let bodyBytesSent := realisticBytesSent statusCode d.rBytes
  let requestID := goToLower d.uuid
  { Timestamp := d.ts
    HTTP :=
      { RequestID := requestID
        Method := httpMethod
        StatusCode := statusCode
        URL := host ++ "/" ++ trimPrefix path "/"
        Host := host
        URI := path
        RequestTime := d.requestTime
        UserAgent := d.userAgent
        Protocol := "HTTP/1.1"
        TraceSessionID := ""
        ServerProtocol := "HTTP/1.1"
        ContentType := "application/json"
        BytesSent := toString bodyBytesSent }
    Nginx :=
      { XForwardFor := ip
        RemoteAddr := ip
        HTTPReferrer := "" } }

/-- The fixed variant's `main`, cut after `n` ticks: startup validation, then
the ticker loop (which, past startup, cannot fail). -/
def run (cfg : Config) (ds : Nat → Draws) (n : Nat) :
    Except String (List LogEntry) :=
  match startup cfg with
  | .error msg => .error msg
  | .ok L => .ok ((List.range n).map fun i => generate L (ds i))

end Fixed

/-- Modelled from the spec (§4.1), for comparison with the code: "given a
roll uniformly drawn from [0,100] and one or more ordered
(label, cumulative-threshold) pairs, return the first label whose cumulative
threshold ≥ roll"; `none` when no threshold is reached (the remaining
probability mass, which falls back to a generic draw). -/
def firstThresholdLabel {α : Type} (roll : Int) (pairs : List (α × Int)) :
    Option α :=
  (pairs.find? fun q => decide (roll ≤ q.2)).map Prod.fst

/-- A concrete set of draws for one weighted-variant tick, used to
instantiate proved statements. -/
def sampleWeightedDraws : Weighted.Draws where
  rIP := 0
  ip4 := "1.2.3.4"
  ip6 := "::1"
  rMethod := 0
  fbMethod := "HEAD"
  rLen := 0
  sepR := fun _ => 0
  word := fun _ => "api"
  rext := 0
  rStatus := 0
  fbStatus := 404
  rBytes := 0
  requestTime := 1
  userAgent := "ua"
  uuid := "AB-12"
  host := "example.com"
  refDomain := "ref.example"
  refRLen := 0
  refSepR := fun _ => 0
  refWord := fun _ => "w"
  refRext := 0
  ts := 0

/-- The record the weighted variant assembles from `sampleWeightedDraws`
under the default configuration. -/
def sampleWeightedEntry : LogEntry where
  Timestamp := 0
  HTTP :=
    { RequestID := "ab-12"
      Method := "GET"
      StatusCode := 200
      URL := "example.com/api.html"
      Host := "example.com"
      URI := "/api.html"
      RequestTime := 1
      UserAgent := "ua"
      Protocol := "HTTP/1.1"
      TraceSessionID := ""
      ServerProtocol := "HTTP/1.1"
      ContentType := "application/json"
      BytesSent := "800" }
  Nginx :=
    { XForwardFor := "1.2.3.4"
      RemoteAddr := ""
      HTTPReferrer := "http://ref.example/w.html" }

/-- A concrete set of draws for one fixed-variant tick. -/
def sampleFixedDraws : Fixed.Draws where
  rIP := 0
  rMethod := 0
  rPath := 0
  rStatus := 0
  rHost := 0
  rBytes := 0
  requestTime := 1
  userAgent := "ua"
  uuid := "X"
  ts := 0

/-- The allow-lists parsed from `sampleFixedConfig`. -/
def sampleFixedLists : Fixed.Lists where
  ipList := ["10.0.0.1"]
  methodList := ["GET"]
  pathList := ["/p"]
  statusCodeList := [200]
  hostList := ["h.example"]

/-- A fixed-variant environment with singleton allow-lists. -/
def sampleFixedConfig : Fixed.Config where
  rate := 1
  ipAddresses := "10.0.0.1"
  httpMethods := "GET"
  paths := "/p"
  statusCodes := "200"
  hosts := "h.example"

/-- A fixed-variant environment whose `IP_ADDRESSES` is unset. -/
def emptyIPConfig : Fixed.Config where
  rate := 1
  ipAddresses := ""
  httpMethods := "GET"
  paths := "/p"
  statusCodes := "200"
  hosts := "h.example"

/-- A weighted-variant configuration whose method weights sum to 120. -/
def cfg7050 : Weighted.Config :=
  { percentageGet := 70, percentagePost := 50 }

/-- A fixed-variant environment whose `STATUS_CODES` holds only
non-numeric tokens. -/
def badStatusConfig : Fixed.Config where
  rate := 1
  ipAddresses := "10.0.0.1"
  httpMethods := "GET"
  paths := "/p"
  statusCodes := "abc,xyz"
  hosts := "h.example"

/-- The same environment as `badStatusConfig` with `STATUS_CODES` unset. -/
def unsetStatusConfig : Fixed.Config where
  rate := 1
  ipAddresses := "10.0.0.1"
  httpMethods := "GET"
  paths := "/p"
  statusCodes := ""
  hosts := "h.example"

/-! ## Helper lemmas -/

/-- The value of `goNumber lo hi r` lies in the inclusive range `[lo, hi]`
whenever the range is well formed. -/
theorem goNumber_mem (lo hi : Int) (r : Nat) (h : lo ≤ hi) :
    lo ≤ goNumber lo hi r ∧ goNumber lo hi r ≤ hi := by
  unfold goNumber
  have h1 : r % (hi + 1 - lo).toNat < (hi + 1 - lo).toNat :=
    Nat.mod_lt _ (by omega)
  omega

/-- An index reduced by the length always selects a member of a non-empty
list (the shape of every `rand.Intn(len(xs))` lookup and of
`gofakeit.RandomString`). -/
theorem getD_mod_mem {α : Type} (l : List α) (r : Nat) (d : α)
    (h : l ≠ []) : l.getD (r % l.length) d ∈ l := by
  have hl : 0 < l.length := List.length_pos.mpr h
  have hlt : r % l.length < l.length := Nat.mod_lt _ hl
  rw [List.getD_eq_getElem?_getD, List.getElem?_eq_getElem hlt]
  exact List.getElem_mem hlt

/-- `encSpaces` distributes over concatenation. -/
theorem encSpaces_append (xs ys : List Char) :
    encSpaces (xs ++ ys) = encSpaces xs ++ encSpaces ys := by
  induction xs with
  | nil => rfl
  | cons c cs ih => simp [encSpaces, ih]

/-- The output of `encSpaces` never contains a space. -/
theorem space_not_mem_encSpaces (xs : List Char) : ' ' ∉ encSpaces xs := by
  induction xs with
  | nil => simp [encSpaces]
  | cons c cs ih =>
    simp only [encSpaces]
    intro hmem
    rcases List.mem_append.mp hmem with h | h
    · by_cases hc : c = ' '
      · rw [if_pos hc] at h
        exact absurd h (by decide)
      · rw [if_neg hc] at h
        simp only [List.mem_singleton] at h
        exact hc h.symm
    · exact ih h

/-- `encSpaces` fixes space-free strings. -/
theorem encSpaces_of_no_space (xs : List Char) (h : ' ' ∉ xs) :
    encSpaces xs = xs := by
  induction xs with
  | nil => rfl
  | cons c cs ih =>
    simp only [List.mem_cons, not_or] at h
    have hc : ¬c = ' ' := fun hcc => h.1 hcc.symm
    simp only [encSpaces, if_neg hc, List.singleton_append, List.cons.injEq,
      true_and]
    exact ih h.2

/-- Field equations of a successfully generated weighted-variant record. -/
theorem weighted_generate_fields (cfg : Weighted.Config) (d : Weighted.Draws)
    (e : LogEntry) (h : Weighted.generate cfg d = Except.ok e) :
    e.HTTP.StatusCode =
      Weighted.weightedStatusCode cfg.statusOkPercent d.rStatus d.fbStatus ∧
    e.HTTP.BytesSent = toString (Weighted.realisticBytesSent
      (Weighted.weightedStatusCode cfg.statusOkPercent d.rStatus d.fbStatus)
      d.rBytes) ∧
    e.HTTP.Protocol = "HTTP/1.1" ∧
    e.HTTP.ServerProtocol = "HTTP/1.1" ∧
    e.HTTP.ContentType = "application/json" ∧
    e.HTTP.TraceSessionID = "" ∧
    e.Nginx.RemoteAddr = "" ∧
    e.Nginx.XForwardFor =
      Weighted.weightedIPVersion cfg.ipv4Percent d.rIP d.ip4 d.ip6 ∧
    e.HTTP.URI = Weighted.randomPath cfg.pathMinLength cfg.pathMaxLength
      d.rLen d.sepR d.word d.rext := by
  unfold Weighted.generate at h
  cases hm : Weighted.weightedHTTPMethod cfg.percentageGet cfg.percentagePost
      cfg.percentagePut cfg.percentagePatch cfg.percentageDelete
      d.rMethod d.fbMethod with
  | error msg => rw [hm] at h; simp at h
  | ok m =>
    rw [hm] at h
    simp only [Except.ok.injEq] at h
    subst h
    exact ⟨rfl, rfl, rfl, rfl, rfl, rfl, rfl, rfl, rfl⟩

/-- A successful fixed-variant startup returns exactly the parsed
allow-lists, all of them non-empty. -/
theorem fixed_startup_ok (cfg : Fixed.Config) (L : Fixed.Lists)
    (h : Fixed.startup cfg = Except.ok L) :
    L.ipList = Fixed.parseEnvList cfg.ipAddresses ∧
    L.methodList = Fixed.parseEnvList cfg.httpMethods ∧
    L.pathList = Fixed.parseEnvList cfg.paths ∧
    L.statusCodeList = Fixed.parseEnvIntList cfg.statusCodes ∧
    L.hostList = Fixed.parseEnvList cfg.hosts ∧
    L.ipList ≠ [] ∧ L.methodList ≠ [] ∧ L.pathList ≠ [] ∧
    L.statusCodeList ≠ [] ∧ L.hostList ≠ [] := by
  simp only [Fixed.startup] at h
  split_ifs at h with h1 h2 h3 h4 h5
  simp only [Except.ok.injEq] at h
  subst h
  refine ⟨rfl, rfl, rfl, rfl, rfl, ?_, ?_, ?_, ?_, ?_⟩ <;>
    simpa [← List.length_eq_zero] using ‹_›

/-! ## Claim C1 -/

/-- C1 counterexample: the fixed-list variant's `realisticBytesSent`
partitions on status ≥ 400, not on status ≠ 200: at status code 301 (not
200) with draw 0 it returns 800, which is not in the claimed range
[30, 120]. -/
theorem c1_counterexample :
    (301 : Int) ≠ 200 ∧ Fixed.realisticBytesSent 301 0 = 800 ∧
      ¬(30 ≤ Fixed.realisticBytesSent 301 0 ∧
        Fixed.realisticBytesSent 301 0 ≤ 120) := by
  refine ⟨by decide, by decide, by decide⟩

/-- C1 (amended): the weighted variant's `realisticBytesSent` partitions on
status ≠ 200 with inclusive bands [30, 120] and [800, 3100]; the fixed-list
variant's partitions on status ≥ 400 with bands [30, 119] and [800, 3099]
(its `rand.Intn` upper bound is exclusive), so a non-200 status below 400
draws from the large band there. In both variants the drawn value is
emitted in the record's `bytes_sent` field as a decimal string. -/
theorem realisticBytesSent_bands (s : Int) (r : Nat) :
    (s ≠ 200 → 30 ≤ Weighted.realisticBytesSent s r ∧
      Weighted.realisticBytesSent s r ≤ 120) ∧
    (s = 200 → 800 ≤ Weighted.realisticBytesSent s r ∧
      Weighted.realisticBytesSent s r ≤ 3100) ∧
    (400 ≤ s → 30 ≤ Fixed.realisticBytesSent s r ∧
      Fixed.realisticBytesSent s r ≤ 119) ∧
    (s < 400 → 800 ≤ Fixed.realisticBytesSent s r ∧
      Fixed.realisticBytesSent s r ≤ 3099) ∧
    (∀ (L : Fixed.Lists) (d : Fixed.Draws),
      (Fixed.generate L d).HTTP.BytesSent =
        toString (Fixed.realisticBytesSent
          (Fixed.generate L d).HTTP.StatusCode d.rBytes)) ∧
    (∀ (cfg : Weighted.Config) (d : Weighted.Draws) (e : LogEntry),
      Weighted.generate cfg d = Except.ok e →
        e.HTTP.BytesSent =
          toString (Weighted.realisticBytesSent e.HTTP.StatusCode d.rBytes)) := by
  refine ⟨?_, ?_, ?_, ?_, ?_, ?_⟩
  · intro h
    simpa [Weighted.realisticBytesSent, h] using
      goNumber_mem 30 120 r (by norm_num)
  · intro h
    subst h
    simpa [Weighted.realisticBytesSent] using
      goNumber_mem 800 3100 r (by norm_num)
  · intro h
    have h1 : r % 90 < 90 := Nat.mod_lt _ (by norm_num)
    simp only [Fixed.realisticBytesSent, if_pos h]
    norm_num
    omega
  · intro h
    have h1 : r % 2300 < 2300 := Nat.mod_lt _ (by norm_num)
    rw [Fixed.realisticBytesSent, if_neg (by omega)]
    norm_num
    omega
  · intro L d
    rfl
  · intro cfg d e h
    obtain ⟨hsc, hbs, -⟩ := weighted_generate_fields cfg d e h
    rw [hbs, hsc]

/-- C1 witness: at status 404 the weighted generator's byte count from draw
0 lies in [30, 120]. -/
theorem c1_witness :
    30 ≤ Weighted.realisticBytesSent 404 0 ∧
      Weighted.realisticBytesSent 404 0 ≤ 120 :=
  (realisticBytesSent_bands 404 0).1 (by decide)

/-! ## Claim C5 -/

/-- C5: `checkMinMax` normalizes any configured pair of path-length bounds
to effective bounds with 1 ≤ fst ≤ snd: both components are floored at 1
and the pair is sorted; in particular in-range inverted bounds are swapped
and in-range ordered bounds pass through unchanged. -/
theorem checkMinMax_normalizes (mn mx : Int) :
    Weighted.checkMinMax mn mx =
      (min (max mn 1) (max mx 1), max (max mn 1) (max mx 1)) ∧
    1 ≤ (Weighted.checkMinMax mn mx).1 ∧
    (Weighted.checkMinMax mn mx).1 ≤ (Weighted.checkMinMax mn mx).2 ∧
    (1 ≤ mx → mx < mn → Weighted.checkMinMax mn mx = (mx, mn)) ∧
    (1 ≤ mn → mn ≤ mx → Weighted.checkMinMax mn mx = (mn, mx)) := by
  have hchar : Weighted.checkMinMax mn mx =
      (min (max mn 1) (max mx 1), max (max mn 1) (max mx 1)) := by
    simp only [Weighted.checkMinMax]
    split_ifs <;> rw [Prod.mk.injEq] <;> constructor <;> omega
  have hlo : 1 ≤ (Weighted.checkMinMax mn mx).1 := by
    rw [hchar]
    dsimp only
    omega
  have hord : (Weighted.checkMinMax mn mx).1 ≤ (Weighted.checkMinMax mn mx).2 := by
    rw [hchar]
    dsimp only
    omega
  refine ⟨hchar, hlo, hord, ?_, ?_⟩
  · intro ha hb
    rw [hchar, Prod.mk.injEq]
    constructor <;> omega
  · intro ha hb
    rw [hchar, Prod.mk.injEq]
    constructor <;> omega

/-- C5 witness: inverted bounds (5, 2) are swapped to (2, 5). -/
theorem c5_witness : Weighted.checkMinMax 5 2 = (2, 5) :=
  (checkMinMax_normalizes 5 2).2.2.2.1 (by decide) (by decide)

/-! ## Claim C4 -/

/-- C4: for path-length bounds 1 ≤ min ≤ max, every string `randomPath`
returns starts with the character `/`, contains no literal space (spaces
from tokens are percent-encoded), and ends in one of the nine fixed
extension suffixes. -/
theorem randomPath_shape (mn mx : Int) (hmn : 1 ≤ mn) (hmx : mn ≤ mx)
    (rlen : Nat) (sepR : Nat → Nat) (word : Nat → String) (rext : Nat) :
    (Weighted.randomPath mn mx rlen sepR word rext).data.head? = some '/' ∧
    ' ' ∉ (Weighted.randomPath mn mx rlen sepR word rext).data ∧
    ∃ ext ∈ Weighted.extensions,
      ext.data <:+ (Weighted.randomPath mn mx rlen sepR word rext).data := by
  have hmem : goRandomString Weighted.extensions rext ∈ Weighted.extensions :=
    getD_mod_mem _ rext _ (by decide)
  have hnosp : ' ' ∉ (goRandomString Weighted.extensions rext).data := by
    have h9 : ∀ e ∈ Weighted.extensions, ' ' ∉ e.data := by decide
    exact h9 _ hmem
  have hdata : (Weighted.randomPath mn mx rlen sepR word rext).data
      = encSpaces (('/' :: (Weighted.pathBody word
          (fun i => goRandomString Weighted.separators (sepR i))
          (goNumber mn mx rlen).toNat).data)
        ++ (goRandomString Weighted.extensions rext).data) := by
    simp only [Weighted.randomPath, replaceSpaces]
    rw [String.data_append, String.data_append]
    rfl
  refine ⟨?_, ?_, ?_⟩
  · rw [hdata, List.cons_append]
    simp only [encSpaces, if_neg (by decide : ¬('/' = ' '))]
    rfl
  · rw [hdata]
    exact space_not_mem_encSpaces _
  · refine ⟨goRandomString Weighted.extensions rext, hmem, ?_⟩
    rw [hdata, encSpaces_append, encSpaces_of_no_space _ hnosp]
    exact List.suffix_append _ _

/-- C4 witness: with bounds (1, 1) and a buzzword containing a space, the
generated path starts with `/`, has no space, and ends in an extension. -/
theorem c4_witness :
    (Weighted.randomPath 1 1 0 (fun _ => 0) (fun _ => "my api") 0).data.head?
      = some '/' ∧
    ' ' ∉ (Weighted.randomPath 1 1 0 (fun _ => 0) (fun _ => "my api") 0).data ∧
    ∃ ext ∈ Weighted.extensions, ext.data <:+
      (Weighted.randomPath 1 1 0 (fun _ => 0) (fun _ => "my api") 0).data :=
  randomPath_shape 1 1 (by decide) (by decide) 0 (fun _ => 0)
    (fun _ => "my api") 0

/-! ## Claim C3 -/

/-- C3: each weighted categorical choice returns the first label whose
cumulative threshold is ≥ the roll (as captured by the spec-side
`firstThresholdLabel` over the ordered cumulative pairs), and when no
threshold is reached it falls back to the generic draw: any HTTP method
(`gofakeit.HTTPMethod`, the `fbMethod` input), a generic status code
(`gofakeit.HTTPStatusCodeSimple`, the `fbStatus` input), and the IPv6
address draw respectively. -/
theorem weighted_choice_first_threshold
    (pGet pPost pPut pPatch pDelete : Int) (r : Nat) (fbMethod : String)
    (pOk fbStatus pIPv4 : Int) (ip4 ip6 : String)
    (hsum : pGet + pPost + pPut + pPatch + pDelete ≤ 100) :
    Weighted.weightedHTTPMethod pGet pPost pPut pPatch pDelete r fbMethod =
      Except.ok ((firstThresholdLabel (goNumber 0 100 r)
        [("GET", pGet), ("POST", pGet + pPost),
         ("PUT", pGet + pPost + pPut),
         ("PATCH", pGet + pPost + pPut + pPatch),
         ("DELETE", pGet + pPost + pPut + pPatch + pDelete)]).getD fbMethod) ∧
    Weighted.weightedStatusCode pOk r fbStatus =
      (firstThresholdLabel (goNumber 0 100 r)
        [((200 : Int), pOk)]).getD fbStatus ∧
    Weighted.weightedIPVersion pIPv4 r ip4 ip6 =
      (firstThresholdLabel (goNumber 0 100 r) [(ip4, pIPv4)]).getD ip6 := by
  refine ⟨?_, ?_, ?_⟩
  · simp only [Weighted.weightedHTTPMethod, firstThresholdLabel,
      if_neg (by omega : ¬pGet + pPost + pPut + pPatch + pDelete > 100)]
    by_cases h1 : goNumber 0 100 r ≤ pGet
    · simp [List.find?, h1]
    · by_cases h2 : goNumber 0 100 r ≤ pGet + pPost
      · simp [List.find?, h1, h2]
      · by_cases h3 : goNumber 0 100 r ≤ pGet + pPost + pPut
        · simp [List.find?, h1, h2, h3]
        · by_cases h4 : goNumber 0 100 r ≤ pGet + pPost + pPut + pPatch
          · simp [List.find?, h1, h2, h3, h4]
          · by_cases h5 : goNumber 0 100 r
                ≤ pGet + pPost + pPut + pPatch + pDelete
            · simp [List.find?, h1, h2, h3, h4, h5]
            · simp [List.find?, h1, h2, h3, h4, h5]
  · simp only [Weighted.weightedStatusCode, firstThresholdLabel]
    by_cases h : goNumber 0 100 r ≤ pOk <;> simp [List.find?, h]
  · simp only [Weighted.weightedIPVersion, firstThresholdLabel]
    by_cases h : goNumber 0 100 r ≤ pIPv4 <;> simp [List.find?, h]

/-- C3 witness: a concrete instantiation (weights 10/20/5/5/10, roll raw
draw 37) of the first-threshold characterization of all three choices. -/
theorem c3_witness :
    Weighted.weightedHTTPMethod 10 20 5 5 10 37 "HEAD" =
      Except.ok ((firstThresholdLabel (goNumber 0 100 37)
        [("GET", 10), ("POST", (10 : Int) + 20), ("PUT", (10 : Int) + 20 + 5),
         ("PATCH", (10 : Int) + 20 + 5 + 5),
         ("DELETE", (10 : Int) + 20 + 5 + 5 + 10)]).getD "HEAD") ∧
    Weighted.weightedStatusCode 50 37 503 =
      (firstThresholdLabel (goNumber 0 100 37)
        [((200 : Int), 50)]).getD 503 ∧
    Weighted.weightedIPVersion 40 37 "1.1.1.1" "::2" =
      (firstThresholdLabel (goNumber 0 100 37) [("1.1.1.1", 40)]).getD "::2" :=
  weighted_choice_first_threshold 10 20 5 5 10 37 "HEAD" 50 503 40
    "1.1.1.1" "::2" (by norm_num)

/-! ## Claim C6 -/

/-- C6 counterexample: with status-ok weight 50 the roll is one of the 101
values 0..100 and the comparison is ≤, so 51 of the 101 possible rolls
yield status 200 — a fraction of 51/101, which is not 50/100. -/
theorem c6_counterexample :
    ((((Finset.range 101).filter
        fun r => Weighted.weightedStatusCode 50 r 404 = 200).card : ℚ) / 101)
      ≠ 50 / 100 := by
  have hcard : ((Finset.range 101).filter
      fun r => Weighted.weightedStatusCode 50 r 404 = 200).card = 51 := by
    decide
  rw [hcard]
  norm_num

/-- C6 (amended): for every status-ok weight W in [0, 100] and any non-200
fallback status, the fraction of the 101 possible roll values for which
`weightedStatusCode` returns 200 equals (W + 1)/101 — the roll is uniform
on 0..100 inclusive and the comparison is ≤ — not W/100. -/
theorem weightedStatusCode_fraction (W : Int) (hW0 : 0 ≤ W) (hW1 : W ≤ 100)
    (fb : Int) (hfb : fb ≠ 200) :
    ((((Finset.range 101).filter
        fun r => Weighted.weightedStatusCode W r fb = 200).card : ℚ) / 101)
      = ((W : ℚ) + 1) / 101 := by
  have hset : ((Finset.range 101).filter
      fun r => Weighted.weightedStatusCode W r fb = 200)
      = Finset.range (W.toNat + 1) := by
    ext r
    simp only [Finset.mem_filter, Finset.mem_range]
    constructor
    · rintro ⟨hr, heq⟩
      norm_num [Weighted.weightedStatusCode, goNumber] at heq
      by_cases h : W < (r : Int) % 101
      · exact absurd (heq h) hfb
      · omega
    · intro hr
      have hr101 : r < 101 := by omega
      refine ⟨hr101, ?_⟩
      norm_num [Weighted.weightedStatusCode, goNumber]
      intro h
      exfalso
      omega
  rw [hset, Finset.card_range]
  have hcast : ((W.toNat : ℚ)) = (W : ℚ) := by
    exact_mod_cast congrArg (fun z : Int => (z : ℚ)) (Int.toNat_of_nonneg hW0)
  push_cast
  rw [hcast]

/-- C6 witness: at weight 80 with fallback 404 the fraction of rolls giving
status 200 is (80 + 1)/101. -/
theorem c6_witness :
    ((((Finset.range 101).filter
        fun r => Weighted.weightedStatusCode 80 r 404 = 200).card : ℚ) / 101)
      = (((80 : Int) : ℚ) + 1) / 101 :=
  weightedStatusCode_fraction 80 (by norm_num) (by norm_num) 404 (by norm_num)

/-! ## Claim C2 -/

/-- C2 counterexample: with method weights GET=70, POST=50 (sum 120) the
weighted variant's startup — everything `main` runs before the ticker
loop, i.e. configuration parse and `checkMinMax` — succeeds, so the
process does not terminate at startup; the fatal weight check instead
fires inside the per-tick generation call (`weightedHTTPMethod`). -/
theorem c2_counterexample :
    Weighted.startup cfg7050 = Except.ok cfg7050 ∧
    Weighted.generate cfg7050 sampleWeightedDraws =
      Except.error "HTTP method percentages add up to more than 100%" := by
  exact ⟨by decide, by decide⟩

/-- C2 (amended): when the five method weights sum over 100 the weighted
variant's startup still succeeds; every per-tick generation call then
fails inside `weightedHTTPMethod` with the panic message, so the process
terminates fatally on the first tick, before any record is emitted — a run
of one or more ticks is the panic and emits nothing, and the check sits in
the per-event code path, not in startup. -/
theorem weighted_overweight_first_tick (cfg : Weighted.Config)
    (h : 100 < cfg.percentageGet + cfg.percentagePost + cfg.percentagePut
      + cfg.percentagePatch + cfg.percentageDelete) :
    (∃ cfg2, Weighted.startup cfg = Except.ok cfg2) ∧
    (∀ d, Weighted.generate cfg d =
      Except.error "HTTP method percentages add up to more than 100%") ∧
    (∀ ds n, 0 < n → Weighted.mainRun cfg ds n =
      Except.error "HTTP method percentages add up to more than 100%") ∧
    (∀ ds, Weighted.mainRun cfg ds 0 = Except.ok []) := by
  have hm : ∀ (g p pu pa de : Int) (r : Nat) (fb : String),
      100 < g + p + pu + pa + de →
      Weighted.weightedHTTPMethod g p pu pa de r fb =
        Except.error "HTTP method percentages add up to more than 100%" := by
    intro g p pu pa de r fb hgt
    simp only [Weighted.weightedHTTPMethod, if_pos hgt]
  have hgen : ∀ (cfg2 : Weighted.Config),
      100 < cfg2.percentageGet + cfg2.percentagePost + cfg2.percentagePut
        + cfg2.percentagePatch + cfg2.percentageDelete →
      ∀ d, Weighted.generate cfg2 d =
        Except.error "HTTP method percentages add up to more than 100%" := by
    intro cfg2 h2 d
    simp only [Weighted.generate, hm _ _ _ _ _ _ _ h2]
  refine ⟨⟨_, rfl⟩, hgen cfg h, ?_, ?_⟩
  · intro ds n hn
    obtain ⟨m, rfl⟩ : ∃ m, n = m + 1 := ⟨n - 1, by omega⟩
    simp only [Weighted.mainRun, Weighted.startup, Weighted.run]
    rw [hgen _ (by simpa using h) (ds m)]
  · intro ds
    simp only [Weighted.mainRun, Weighted.startup, Weighted.run]

/-- C2 witness: the 70/50 configuration panics in the first generation
call and any one-tick run errors with the panic message. -/
theorem c2_witness :
    Weighted.generate cfg7050 sampleWeightedDraws =
      Except.error "HTTP method percentages add up to more than 100%" ∧
    Weighted.mainRun cfg7050 (fun _ => sampleWeightedDraws) 1 =
      Except.error "HTTP method percentages add up to more than 100%" :=
  ⟨(weighted_overweight_first_tick cfg7050 (by decide)).2.1
      sampleWeightedDraws,
   (weighted_overweight_first_tick cfg7050 (by decide)).2.2.1
      (fun _ => sampleWeightedDraws) 1 (by decide)⟩

/-! ## Claim C7 -/

/-- C7: in the fixed allow-list variant, if any of the five required lists
parses to the empty list, startup aborts with one of the five descriptive
messages, before any record is generated: a run of any number of ticks
yields that error and no records. -/
theorem fixed_empty_list_fatal (cfg : Fixed.Config)
    (h : Fixed.parseEnvList cfg.ipAddresses = []
      ∨ Fixed.parseEnvList cfg.httpMethods = []
      ∨ Fixed.parseEnvList cfg.paths = []
      ∨ Fixed.parseEnvIntList cfg.statusCodes = []
      ∨ Fixed.parseEnvList cfg.hosts = []) :
    (∃ msg, Fixed.startup cfg = Except.error msg ∧
      msg ∈ ["IP_ADDRESSES environment variable must be set with at least one IP address",
        "HTTP_METHODS environment variable must be set with at least one HTTP method",
        "PATHS environment variable must be set with at least one path",
        "STATUS_CODES environment variable must be set with at least one status code",
        "HOSTS environment variable must be set with at least one host"]) ∧
    ∀ ds n, ∃ msg, Fixed.run cfg ds n = Except.error msg := by
  have hs : ∃ msg, Fixed.startup cfg = Except.error msg ∧
      msg ∈ ["IP_ADDRESSES environment variable must be set with at least one IP address",
        "HTTP_METHODS environment variable must be set with at least one HTTP method",
        "PATHS environment variable must be set with at least one path",
        "STATUS_CODES environment variable must be set with at least one status code",
        "HOSTS environment variable must be set with at least one host"] := by
    simp only [Fixed.startup]
    split_ifs with h1 h2 h3 h4 h5
    · exact ⟨_, rfl, by decide⟩
    · exact ⟨_, rfl, by decide⟩
    · exact ⟨_, rfl, by decide⟩
    · exact ⟨_, rfl, by decide⟩
    · exact ⟨_, rfl, by decide⟩
    · exfalso
      rcases h with h | h | h | h | h
      · exact h1 (by rw [h]; rfl)
      · exact h2 (by rw [h]; rfl)
      · exact h3 (by rw [h]; rfl)
      · exact h4 (by rw [h]; rfl)
      · exact h5 (by rw [h]; rfl)
  refine ⟨hs, ?_⟩
  intro ds n
  obtain ⟨msg, hmsg, -⟩ := hs
  exact ⟨msg, by simp only [Fixed.run, hmsg]⟩

/-- C7 witness: with `IP_ADDRESSES` unset, a three-tick run of the fixed
variant produces only the startup error. -/
theorem c7_witness :
    ∃ msg, Fixed.run emptyIPConfig (fun _ => sampleFixedDraws) 3 =
      Except.error msg :=
  (fixed_empty_list_fatal emptyIPConfig (Or.inl (by decide))).2
    (fun _ => sampleFixedDraws) 3

/-! ## Claim C8 -/

/-- C8: past a successful startup, every fixed-variant record field is
drawn from its configured allow-list; with the singleton lists
IP_ADDRESSES="10.0.0.1" and HTTP_METHODS="GET", every record has method
"GET" and IP "10.0.0.1" in both `x-forward-for` and `remote_addr`. -/
theorem fixed_fields_from_lists (cfg : Fixed.Config) (L : Fixed.Lists)
    (hs : Fixed.startup cfg = Except.ok L) (d : Fixed.Draws) :
    ((Fixed.generate L d).HTTP.Method ∈ L.methodList ∧
     (Fixed.generate L d).Nginx.XForwardFor ∈ L.ipList ∧
     (Fixed.generate L d).Nginx.RemoteAddr ∈ L.ipList ∧
     (Fixed.generate L d).HTTP.URI ∈ L.pathList ∧
     (Fixed.generate L d).HTTP.StatusCode ∈ L.statusCodeList ∧
     (Fixed.generate L d).HTTP.Host ∈ L.hostList) ∧
    (cfg.ipAddresses = "10.0.0.1" → cfg.httpMethods = "GET" →
      (Fixed.generate L d).Nginx.XForwardFor = "10.0.0.1" ∧
      (Fixed.generate L d).Nginx.RemoteAddr = "10.0.0.1" ∧
      (Fixed.generate L d).HTTP.Method = "GET") := by
  obtain ⟨hip, hmethod, hpath, hstatus, hhost, hipne, hmne, hpne, hsne, hhne⟩ :=
    fixed_startup_ok cfg L hs
  constructor
  · exact ⟨getD_mod_mem _ _ _ hmne, getD_mod_mem _ _ _ hipne,
      getD_mod_mem _ _ _ hipne, getD_mod_mem _ _ _ hpne,
      getD_mod_mem _ _ _ hsne, getD_mod_mem _ _ _ hhne⟩
  · intro hipcfg hmcfg
    have h1 : L.ipList = ["10.0.0.1"] := by rw [hip, hipcfg]; decide
    have h2 : L.methodList = ["GET"] := by rw [hmethod, hmcfg]; decide
    refine ⟨?_, ?_, ?_⟩ <;> simp [Fixed.generate, h1, h2, Nat.mod_one]

/-- C8 witness: with the singleton allow-lists of `sampleFixedConfig`,
the generated record's method is "GET" and both IP fields are "10.0.0.1". -/
theorem c8_witness :
    (Fixed.generate sampleFixedLists sampleFixedDraws).Nginx.XForwardFor
      = "10.0.0.1" ∧
    (Fixed.generate sampleFixedLists sampleFixedDraws).Nginx.RemoteAddr
      = "10.0.0.1" ∧
    (Fixed.generate sampleFixedLists sampleFixedDraws).HTTP.Method = "GET" :=
  (fixed_fields_from_lists sampleFixedConfig sampleFixedLists (by decide)
    sampleFixedDraws).2 (by decide) (by decide)

/-! ## Claim C9 -/

/-- C9: `parseEnvIntList` silently keeps exactly the comma-separated
tokens `strconv.Atoi` accepts — it is the `atoi`-filterMap of the trimmed
parts of the very split `parseEnvList` performs; a value with only
non-numeric tokens parses to the empty list, so startup treats it exactly
like an unset variable (fatal error), and a mixed list keeps only its
numeric entries with no warning. -/
theorem parseEnvIntList_silently_discards :
    (∀ envVar, Fixed.parseEnvIntList envVar =
      ((Fixed.parseEnvList envVar).map goTrimSpace).filterMap atoi) ∧
    Fixed.parseEnvIntList "abc,xyz" = [] ∧
    Fixed.parseEnvIntList "" = [] ∧
    (∀ cfg : Fixed.Config, cfg.statusCodes = "abc,xyz" →
      Fixed.startup cfg = Fixed.startup { cfg with statusCodes := "" }) ∧
    Fixed.parseEnvIntList "200,foo,404" = [200, 404] := by
  refine ⟨?_, by decide, by decide, ?_, by decide⟩
  · intro envVar
    by_cases h : envVar = ""
    · subst h
      rfl
    · simp [Fixed.parseEnvIntList, Fixed.parseEnvList, h]
  · intro cfg hc
    have h1 : Fixed.parseEnvIntList cfg.statusCodes
        = Fixed.parseEnvIntList ("" : String) := by
      rw [hc]
      decide
    simp only [Fixed.startup, h1]

/-- C9 witness: the all-non-numeric value and mixed value behave as
claimed, and startup on an otherwise-valid environment treats
STATUS_CODES="abc,xyz" exactly like an unset STATUS_CODES. -/
theorem c9_witness :
    Fixed.parseEnvIntList "abc,xyz" = [] ∧
    Fixed.parseEnvIntList "200,foo,404" = [200, 404] ∧
    Fixed.startup badStatusConfig = Fixed.startup unsetStatusConfig :=
  ⟨parseEnvIntList_silently_discards.2.1,
   parseEnvIntList_silently_discards.2.2.2.2,
   parseEnvIntList_silently_discards.2.2.2.1 _ rfl⟩

/-! ## Claim C10 -/

/-- C10: every record of either variant carries protocol "HTTP/1.1",
server_protocol "HTTP/1.1", content_type "application/json" and an empty
trace_session_id; the weighted variant's remote_addr is always the empty
string, while the fixed variant's remote_addr always equals its
x-forward-for. -/
theorem record_constant_fields (cfg : Weighted.Config) (d : Weighted.Draws)
    (e : LogEntry) (hw : Weighted.generate cfg d = Except.ok e)
    (L : Fixed.Lists) (df : Fixed.Draws) :
    (e.HTTP.Protocol = "HTTP/1.1" ∧ e.HTTP.ServerProtocol = "HTTP/1.1" ∧
     e.HTTP.ContentType = "application/json" ∧ e.HTTP.TraceSessionID = "" ∧
     e.Nginx.RemoteAddr = "") ∧
    ((Fixed.generate L df).HTTP.Protocol = "HTTP/1.1" ∧
     (Fixed.generate L df).HTTP.ServerProtocol = "HTTP/1.1" ∧
     (Fixed.generate L df).HTTP.ContentType = "application/json" ∧
     (Fixed.generate L df).HTTP.TraceSessionID = "" ∧
     (Fixed.generate L df).Nginx.RemoteAddr =
       (Fixed.generate L df).Nginx.XForwardFor) := by
  obtain ⟨-, -, hp, hsp, hct, hts, hra, -⟩ :=
    weighted_generate_fields cfg d e hw
  exact ⟨⟨hp, hsp, hct, hts, hra⟩, rfl, rfl, rfl, rfl, rfl⟩

/-- C10 witness: the constant fields on one concrete record of each
variant. -/
theorem c10_witness :
    (sampleWeightedEntry.HTTP.Protocol = "HTTP/1.1" ∧
     sampleWeightedEntry.HTTP.ServerProtocol = "HTTP/1.1" ∧
     sampleWeightedEntry.HTTP.ContentType = "application/json" ∧
     sampleWeightedEntry.HTTP.TraceSessionID = "" ∧
     sampleWeightedEntry.Nginx.RemoteAddr = "") ∧
    ((Fixed.generate sampleFixedLists sampleFixedDraws).HTTP.Protocol
        = "HTTP/1.1" ∧
     (Fixed.generate sampleFixedLists sampleFixedDraws).HTTP.ServerProtocol
        = "HTTP/1.1" ∧
     (Fixed.generate sampleFixedLists sampleFixedDraws).HTTP.ContentType
        = "application/json" ∧
     (Fixed.generate sampleFixedLists sampleFixedDraws).HTTP.TraceSessionID
        = "" ∧
     (Fixed.generate sampleFixedLists sampleFixedDraws).Nginx.RemoteAddr =
       (Fixed.generate sampleFixedLists sampleFixedDraws).Nginx.XForwardFor) :=
  record_constant_fields {} sampleWeightedDraws sampleWeightedEntry
    (by decide) sampleFixedLists sampleFixedDraws

end GenLog
